import Mathlib

/-!
Shallow embedding of the viewer-larivot application (src/main.ts and
src/MeasurementsUI.ts).

The application wires a third-party 3D viewer to a small UI: a dropdown that
moves the camera to hard-coded elements, a documentation button driven by the
metadata of the clicked node, an id-to-node lookup map built after model
load, a measurements panel mirroring UI fields into the extension, and a
sequential async startup.

JavaScript values are embedded as follows: a possibly-absent or null field is
an `Option`; string truthiness is `s ≠ ""`; a JS `Map<string, TreeNode>` is an
association list with in-place overwrite on `set` and first-match `get`
(keys are unique by construction, so this coincides with JS Map semantics);
the effects of library calls (selection, camera, section tool, console) are
recorded in an explicit state record.
-/

/-- Embedding of the object stored under the raw property key
`Données utilisateur`: it may carry a `URL_DOC` string (absent or null is
`none`). -/
structure UserData where
  URL_DOC : Option String
deriving DecidableEq

/-- Embedding of `node.model.raw.properties`: the model-defined `id` string
property (absent or null is `none`; the empty string is the falsy string) and
the optional `Données utilisateur` object. -/
structure NodeProperties where
  id : Option String
  donneesUtilisateur : Option UserData
deriving DecidableEq

/-- Embedding of `node.model.raw`: the raw speckle data, whose `properties`
object may be absent (a falsy value in the truthiness tests of the source). -/
structure RawData where
  properties : Option NodeProperties
deriving DecidableEq

/-- Embedding of `node.model` (the `NodeData` type of the viewer library): the
viewer model id used by `setCameraView`, plus the raw data. -/
structure NodeData where
  id : String
  raw : RawData
deriving DecidableEq

/-- Embedding of the `TreeNode` type of the viewer library: a scene-graph node
carrying its model data. -/
structure TreeNode where
  model : NodeData
deriving DecidableEq

/-- Truthiness of `node.model.raw.properties` in the `findAll` predicate: a
JS object is truthy exactly when it is present. -/
def propsTruthy (n : TreeNode) : Bool :=
  n.model.raw.properties.isSome

/-- The raw `id` property of a node: `node.model.raw.properties.id` when the
properties object is present and carries an id. -/
def rawId (n : TreeNode) : Option String :=
  n.model.raw.properties.bind (fun p => p.id)

/-- Truthiness of `node.model.raw.properties.id`: present and non-empty. -/
def idTruthy (n : TreeNode) : Bool :=
  match rawId n with
  | some s => s ≠ ""
  | none => false

/-- The `findAll` predicate of main.ts lines 98-99:
`node.model.raw.properties && node.model.raw.properties.id`. -/
def scanPred (n : TreeNode) : Bool :=
  propsTruthy n && idTruthy n

/-- The nodes returned by `viewer.getWorldTree().findAll(...)` (the variable
`tn_GenericModels`), with the world tree modelled as the list of its nodes in
scan order. -/
def scanNodes (tree : List TreeNode) : List TreeNode :=
  tree.filter scanPred

/-- The key under which a scanned node is inserted into the map:
`node.model.raw.properties.id`. Scanned nodes always carry a truthy id, so
the default is never used. -/
def scanId (n : TreeNode) : String :=
  (rawId n).getD ""

/-- Embedding of `Map.get`: the binding of key `k`, if any. -/
def mapGet (m : List (String × TreeNode)) (k : String) : Option TreeNode :=
  match m with
  | [] => none
  | p :: rest => if p.1 = k then some p.2 else mapGet rest k

/-- Embedding of `Map.set`: overwrite the binding of `k` in place when one
exists, otherwise append the new binding (JS Map insertion-order semantics). -/
def mapSet (m : List (String × TreeNode)) (k : String) (v : TreeNode) :
    List (String × TreeNode) :=
  match m with
  | [] => [(k, v)]
  | p :: rest => if p.1 = k then (k, v) :: rest else p :: mapSet rest k v

/-- Embedding of the `treeNodeMap` construction of main.ts lines 92-105: a
fresh map filled by `tn_GenericModels.forEach((node) =>
treeNodeMap.set(node.model.raw.properties.id, node))`. -/
def buildTreeNodeMap (tree : List TreeNode) : List (String × TreeNode) :=
  (scanNodes tree).foldl (fun m n => mapSet m (scanId n) n) []

/-- Right-biased choice on options, used to express that a later insertion
overwrites an earlier one. -/
def orelse (a b : Option TreeNode) : Option TreeNode :=
  match a with
  | some x => some x
  | none => b

/-- The last node of `l` (in list order) whose scan id is `k`, if any. -/
def lastWithId (l : List TreeNode) (k : String) : Option TreeNode :=
  match l with
  | [] => none
  | n :: rest => orelse (lastWithId rest k) (if scanId n = k then some n else none)

/-- Embedding of the JavaScript string `trim` method: drop leading and
trailing whitespace characters. -/
def jsTrim (s : String) : String :=
  String.mk ((s.data.dropWhile Char.isWhitespace).reverse.dropWhile
    Char.isWhitespace).reverse

/-- A documentation button on the control panel: either enabled with the URL
its click action opens via `window.open`, or disabled. -/
inductive DocButton where
  | enabled (url : String)
  | disabled
deriving DecidableEq

/-- The URL a click on the button opens (`window.open(parameterUrl, ...)`),
if the button is enabled. -/
def docButtonOpens (b : DocButton) : Option String :=
  match b with
  | DocButton.enabled url => some url
  | DocButton.disabled => none

/-- The control-panel state relevant to the documentation button: the
module-level `btnUrlDoc` reference (null before the first call) and the list
of documentation buttons currently present on the pane. -/
structure UIState where
  btnUrlDoc : Option DocButton
  paneButtons : List DocButton
deriving DecidableEq

/-- Embedding of `createOrUpdateButton` (main.ts lines 166-190): remove the
previous button when `btnUrlDoc` is non-null, then add a button enabled with
the URL when `parameterUrl` is truthy and non-empty after trim, else a disabled
one, and point `btnUrlDoc` at it. -/
def createOrUpdateButton (st : UIState) (parameterUrl : Option String) :
    UIState :=
  let removed : List DocButton :=
    match st.btnUrlDoc with
    | some b => st.paneButtons.erase b
    | none => st.paneButtons
  let newBtn : DocButton :=
    match parameterUrl with
    | some u => if u ≠ "" ∧ jsTrim u ≠ "" then DocButton.enabled u else DocButton.disabled
    | none => DocButton.disabled
  { btnUrlDoc := some newBtn, paneButtons := removed ++ [newBtn] }

/-- Embedding of the URL extraction shared by `ZoomOnTreeNode` (lines 239-241)
and the `ObjectClicked` handler (lines 254-256):
take the `Données utilisateur` entry of the raw properties (an empty object
when absent), then `userData.URL_DOC || null`, where the null fallback
coerces the falsy empty string to null. -/
def extractUrl (n : TreeNode) : Option String :=
  match n.model.raw.properties with
  | none => none
  | some props =>
    match props.donneesUtilisateur with
    | none => none
    | some userData =>
      match userData.URL_DOC with
      | none => none
      | some u => if u = "" then none else some u

/-- Restatement of the enabling condition of the specification, for comparison
with the code path: the documentation URL of a node is the `URL_DOC` string of
the `Données utilisateur` object of its raw properties when that string is
non-null and non-empty after trimming, and nothing otherwise. -/
def specDocUrl (n : TreeNode) : Option String :=
  match n.model.raw.properties with
  | none => none
  | some props =>
    match props.donneesUtilisateur with
    | none => none
    | some userData =>
      match userData.URL_DOC with
      | none => none
      | some u => if jsTrim u = "" then none else some u

/-- The observable state touched by the event handlers: the documentation
button, the selected ids of the selection extension, the last
`setCameraView(ids, transition)` call, the enabled flag of the section tool, and
the console log. -/
structure ViewerState where
  ui : UIState
  selectedIds : List String
  cameraView : List String × Bool
  sectionEnabled : Bool
  consoleLog : List String
deriving DecidableEq

/-- Hard-coded id of the échappement element (main.ts line 216). -/
def echappementId : String := "43f5ec360a6eb64885aef52d54281f2f"

/-- Hard-coded id of the catalyseur element (main.ts line 220). -/
def catalyseurId : String := "7d99a80b449d360e6380c0108737ae1a"

/-- The console message logged when no node is found for a dropdown value
(main.ts line 228). -/
def notFoundMsg (value : String) : String :=
  "Impossible de trouver le node pour l\x27élément " ++ value

/-- Embedding of `ZoomOnTreeNode` (main.ts lines 233-245): clear the
selection, call `setCameraView([targetTreeNode.model.id], true)`, then create
or update the documentation button from the extracted URL of the node. -/
def ZoomOnTreeNode (st : ViewerState) (targetTreeNode : TreeNode) :
    ViewerState :=
  { st with
    selectedIds := []
    cameraView := ([targetTreeNode.model.id], true)
    ui := createOrUpdateButton st.ui (extractUrl targetTreeNode) }

/-- Embedding of the dropdown change handler (main.ts lines 204-230). The
value `all` clears the selection, resets the camera with
`setCameraView([], false)` and disables the button; `echappement` and
`catalyseur` look their hard-coded id up in the map. After the switch,
`if (tnFinded)` zooms on the found node, and otherwise logs; note that the
`all` branch leaves `tnFinded` null and therefore also logs. -/
def dropdownChange (treeNodeMap : List (String × TreeNode)) (st : ViewerState)
    (value : String) : ViewerState :=
  if value = "all" then
    let st1 : ViewerState :=
      { st with
        selectedIds := []
        cameraView := ([], false)
        ui := createOrUpdateButton st.ui none }
    { st1 with consoleLog := st1.consoleLog ++ [notFoundMsg value] }
  else
    let tnFinded : Option TreeNode :=
      if value = "echappement" then mapGet treeNodeMap echappementId
      else if value = "catalyseur" then mapGet treeNodeMap catalyseurId
      else none
    match tnFinded with
    | some tn => ZoomOnTreeNode st tn
    | none => { st with consoleLog := st.consoleLog ++ [notFoundMsg value] }

/-- A raycast hit carried by a selection event, holding the hit node. -/
structure Hit where
  node : TreeNode
deriving DecidableEq

/-- Embedding of the `SelectionEvent` of the viewer: its `hits` field may be absent
or null (`none`); a present JS array, even empty, is truthy. -/
structure SelectionEvent where
  hits : Option (List Hit)
deriving DecidableEq

/-- Embedding of the `ObjectClicked` handler (main.ts lines 248-261): when
the event and its `hits` field are truthy, take `hits[0].node`, extract the
documentation URL from its raw properties, and create or update the button;
otherwise do nothing. A truthy but empty `hits` array makes `hits[0]`
undefined and the `.node` access throw, which `none` records. -/
def objectClicked (st : ViewerState) (selectionEvent : Option SelectionEvent) :
    Option ViewerState :=
  match selectionEvent with
  | none => some st
  | some ev =>
    match ev.hits with
    | none => some st
    | some hits =>
      match hits with
      | [] => none
      | h :: _ =>
        some { st with ui := createOrUpdateButton st.ui (extractUrl h.node) }

/-- Embedding of the `MeasurementType` enumeration of the viewer library, as used
by MeasurementsUI.ts. -/
inductive MeasurementType where
  | PERPENDICULAR
  | POINTTOPOINT
deriving DecidableEq

/-- The shape of the `measurementsParams` object of MeasurementsUI.ts lines
9-16: the flat set of user-editable measurement fields. -/
structure MeasurementParams where
  type : MeasurementType
  vertexSnap : Bool
  units : String
  precision : Nat
  visible : Bool
  enabled : Bool
deriving DecidableEq

/-- The initial value of `measurementsParams` (MeasurementsUI.ts lines 9-16). -/
def measurementsParams : MeasurementParams :=
  { type := MeasurementType.POINTTOPOINT
    vertexSnap := true
    units := "m"
    precision := 2
    visible := true
    enabled := false }

/-- The observable state of the `MeasurementsExtension`: its `enabled`
property and its `options` object. -/
structure MeasurementsExtensionState where
  enabled : Bool
  options : MeasurementParams
deriving DecidableEq

/-- The six editable fields of the measurements pane built by
`makeMeasurementsUI`. -/
inductive MeasField where
  | enabled
  | visible
  | type
  | vertexSnap
  | units
  | precision
deriving DecidableEq

/-- Embedding of the change handlers installed by `makeMeasurementsUI`
(MeasurementsUI.ts lines 23-73): `params` is the `measurementsParams` object
after tweakpane has written the edited field. The `enabled` handler assigns
`measurementsParams.enabled` to the `enabled` property of the extension; the
handler of every other field assigns the whole `measurementsParams` object to
the `options` of the extension. -/
def measurementsChange (f : MeasField) (params : MeasurementParams)
    (ext : MeasurementsExtensionState) : MeasurementsExtensionState :=
  match f with
  | MeasField.enabled => { ext with enabled := params.enabled }
  | MeasField.visible => { ext with options := params }
  | MeasField.type => { ext with options := params }
  | MeasField.vertexSnap => { ext with options := params }
  | MeasField.units => { ext with options := params }
  | MeasField.precision => { ext with options := params }

/-- The awaited steps of the startup sequence of `main` (main.ts lines
25-84), in the order the source performs them; each step completes before the
next begins, so the run is the linear trace `startupTrace`. -/
inductive StartupStep where
  | spinStart
  | viewerInit
  | createExtensions
  | resolveUrls
  | loadObject (url : String)
  | spinStop
deriving DecidableEq

/-- The startup trace of `main` for a given resolved URL list: the spinner
starts, `viewer.init()` is awaited, the extensions are created,
`UrlHelper.getResourceUrls` is awaited, the object of each URL is loaded by an
awaited `viewer.loadObject` in list order, and the spinner stops. No step of
the trace is a cancellation or a timeout. -/
def startupTrace (urls : List String) : List StartupStep :=
  [StartupStep.spinStart, StartupStep.viewerInit, StartupStep.createExtensions,
    StartupStep.resolveUrls]
  ++ urls.map StartupStep.loadObject
  ++ [StartupStep.spinStop]

/-- A DOM element, identified by its id attribute. -/
structure Element where
  eid : String
deriving DecidableEq

/-- The DOM environment `main` runs against: `getElementById` as a partial
map from ids to elements. -/
structure Dom where
  byId : String → Option Element

/-- The error surfaced when code dereferences a missing element: the uncaught
TypeError raised on a null DOM reference, carrying the looked-up id. -/
inductive InitError where
  | nullElement (id : String)
deriving DecidableEq

/-- Modelled from the spec: the external spinner and viewer libraries
(`loadingSpinner.spin(spinnerTarget)` and `new Viewer(container, params)`,
whose sources are not part of this repository) use the container element they
are given, so a null argument raises, and nothing in `main` catches it. -/
def useElement (e : Option Element) (id : String) : Except InitError Element :=
  match e with
  | some el => Except.ok el
  | none => Except.error (InitError.nullElement id)

/-- Embedding of the DOM phase of `main` (main.ts lines 27-84): the `spinner`
and `renderer` elements are fetched with `getElementById` and passed straight
to the libraries with no null guard (the `as HTMLElement` cast checks
nothing), while the `loading-spinner` element is guarded by
`if (loadingDiv)` and its absence is tolerated. -/
def mainDomPhase (dom : Dom) : Except InitError Unit :=
  match useElement (dom.byId "spinner") "spinner" with
  | Except.error e => Except.error e
  | Except.ok _ =>
    match useElement (dom.byId "renderer") "renderer" with
    | Except.error e => Except.error e
    | Except.ok _ =>
      match dom.byId "loading-spinner" with
      | some _ => Except.ok ()
      | none => Except.ok ()

/-- The documentation button created for a given documentation URL: enabled
with the URL when one is present, disabled otherwise. -/
def docButtonFor (url : Option String) : DocButton :=
  match url with
  | some u => DocButton.enabled u
  | none => DocButton.disabled

/-- The documentation-button invariant: the pane holds exactly the buttons
referenced by `btnUrlDoc` (none before the first call, and afterwards the one
current button). -/
def docButtonInv (st : UIState) : Prop :=
  st.paneButtons = st.btnUrlDoc.toList

/-- A concrete node carrying an id and a documentation URL, used to evaluate
the theorems on closed inputs. -/
def sampleNode : TreeNode :=
  TreeNode.mk (NodeData.mk "m1" (RawData.mk (some (NodeProperties.mk (some "abc")
    (some (UserData.mk (some "https://example.org/doc")))))))

/-- A concrete node carrying the hard-coded échappement id, used to evaluate
the theorems on closed inputs. -/
def zoomNode : TreeNode :=
  TreeNode.mk (NodeData.mk "model-echappement" (RawData.mk (some (NodeProperties.mk
    (some echappementId) none))))

/-- A concrete initial viewer state, used to evaluate the theorems on closed
inputs. -/
def sampleState : ViewerState :=
  { ui := { btnUrlDoc := none, paneButtons := [] }
    selectedIds := []
    cameraView := ([], false)
    sectionEnabled := true
    consoleLog := [] }

/-- A concrete measurements-extension state, used to evaluate the theorems on
closed inputs. -/
def sampleExt : MeasurementsExtensionState :=
  { enabled := false, options := measurementsParams }

/-- A DOM with no elements at all, used to evaluate the theorems on closed
inputs. -/
def emptyDom : Dom :=
  { byId := fun _ => none }

/-- Setting a key and then reading gives the new value at that key and leaves
every other key unchanged. -/
theorem mapGet_mapSet (m : List (String × TreeNode)) (k k' : String)
    (v : TreeNode) :
    mapGet (mapSet m k v) k' = if k = k' then some v else mapGet m k' := by
  induction m with
  | nil =>
    by_cases h2 : k = k' <;> simp [mapSet, mapGet, h2]
  | cons p rest ih =>
    by_cases h : p.1 = k
    · by_cases h2 : k = k'
      · simp [mapSet, mapGet, h, h2]
      · have hp : ¬(p.1 = k') := by rw [h]; exact h2
        simp [mapSet, mapGet, h, h2, hp]
    · by_cases h3 : p.1 = k'
      · have h2 : ¬(k = k') := by intro hk; exact h (by rw [hk, h3])
        have h2x : ¬(k' = k) := fun hk => h2 hk.symm
        simp [mapSet, mapGet, h, h3, h2, h2x, ih]
      · simp [mapSet, mapGet, h, h3, ih]

/-- Reading a key after folding insertions over a node list gives the last
inserted node with that key, falling back to the initial map. -/
theorem mapGet_foldl (l : List TreeNode) (m : List (String × TreeNode))
    (k : String) :
    mapGet (l.foldl (fun acc n => mapSet acc (scanId n) n) m) k =
      orelse (lastWithId l k) (mapGet m k) := by
  induction l generalizing m with
  | nil => simp [lastWithId, orelse]
  | cons n rest ih =>
    rw [List.foldl_cons, ih, mapGet_mapSet, lastWithId]
    cases hl : lastWithId rest k with
    | some t => simp [orelse]
    | none =>
      by_cases h : scanId n = k
      · simp [orelse, h]
      · simp [orelse, h]

/-- The value of `buildTreeNodeMap` at any key is the last scanned node whose
id is that key. -/
theorem mapGet_buildTreeNodeMap (tree : List TreeNode) (k : String) :
    mapGet (buildTreeNodeMap tree) k = lastWithId (scanNodes tree) k := by
  rw [buildTreeNodeMap, mapGet_foldl]
  cases lastWithId (scanNodes tree) k <;> rfl

/-- The last node with a given id is a member of the list and carries that
id. -/
theorem lastWithId_mem (l : List TreeNode) (k : String) (tn : TreeNode)
    (h : lastWithId l k = some tn) : tn ∈ l ∧ scanId tn = k := by
  induction l with
  | nil => simp [lastWithId] at h
  | cons n rest ih =>
    rw [lastWithId] at h
    cases hl : lastWithId rest k with
    | some t =>
      rw [hl] at h
      simp only [orelse] at h
      obtain rfl : t = tn := by injection h
      have hm := ih hl
      exact ⟨List.mem_cons_of_mem n hm.1, hm.2⟩
    | none =>
      rw [hl] at h
      simp only [orelse] at h
      by_cases hn : scanId n = k
      · rw [if_pos hn] at h
        obtain rfl : n = tn := by injection h
        exact ⟨List.mem_cons_self n rest, hn⟩
      · rw [if_neg hn] at h
        simp at h

/-- A list has a last node with id `k` exactly when some member carries id
`k`. -/
theorem lastWithId_isSome_iff (l : List TreeNode) (k : String) :
    (lastWithId l k).isSome = true ↔ ∃ n ∈ l, scanId n = k := by
  induction l with
  | nil => simp [lastWithId]
  | cons n rest ih =>
    rw [lastWithId]
    cases hl : lastWithId rest k with
    | some t =>
      have hm := lastWithId_mem rest k t hl
      exact ⟨fun _ => ⟨t, List.mem_cons_of_mem n hm.1, hm.2⟩, fun _ => rfl⟩
    | none =>
      rw [hl] at ih
      by_cases h : scanId n = k
      · rw [if_pos h]
        exact ⟨fun _ => ⟨n, List.mem_cons_self n rest, h⟩, fun _ => rfl⟩
      · rw [if_neg h]
        constructor
        · intro habs
          simp [orelse] at habs
        · rintro ⟨m, hm, hid⟩
          rcases List.mem_cons.mp hm with rfl | hmem
          · exact absurd hid h
          · exact ih.mpr ⟨m, hmem, hid⟩

/-- A node passing the scan predicate carries a truthy id equal to its scan
key. -/
theorem scanPred_rawId (n : TreeNode) (h : scanPred n = true) :
    rawId n = some (scanId n) ∧ scanId n ≠ "" := by
  rw [scanPred, Bool.and_eq_true] at h
  obtain ⟨hp, hi⟩ := h
  cases hr : rawId n with
  | none => simp [idTruthy, hr] at hi
  | some s =>
    simp [idTruthy, hr] at hi
    simp [scanId, hr, hi]

/-- The button installed by `createOrUpdateButton` on the URL extracted from a
node agrees with the enabling condition stated by the specification. -/
theorem createOrUpdateButton_extract_spec (st : UIState) (n : TreeNode) :
    (createOrUpdateButton st (extractUrl n)).btnUrlDoc =
      some (docButtonFor (specDocUrl n)) := by
  obtain ⟨mid, ⟨props⟩⟩ := n
  cases props with
  | none => rfl
  | some p =>
    obtain ⟨pid, dd⟩ := p
    cases dd with
    | none => rfl
    | some ud =>
      obtain ⟨url⟩ := ud
      cases url with
      | none => rfl
      | some u =>
        by_cases h0 : u = ""
        · subst h0
          have ht : jsTrim "" = "" := rfl
          simp [extractUrl, specDocUrl, createOrUpdateButton, docButtonFor, ht]
        · by_cases ht : jsTrim u = ""
          · have hc : ¬(u ≠ "" ∧ jsTrim u ≠ "") := by simp [ht]
            simp [extractUrl, specDocUrl, createOrUpdateButton, docButtonFor,
              h0, ht, hc]
          · simp [extractUrl, specDocUrl, createOrUpdateButton, docButtonFor,
              h0, ht]

/-- C2: for every ObjectClicked event carrying a hit node, the handler
recreates the documentation button; the button is enabled with a click action
opening exactly the URL from the `Données utilisateur` raw properties when
that `URL_DOC` is a non-null string that is non-empty after trimming, and
disabled otherwise. -/
theorem objectClicked_doc_button (st : ViewerState) (n : TreeNode)
    (rest : List Hit) :
    ∃ st2,
      objectClicked st (some { hits := some ({ node := n } :: rest) }) =
        some st2 ∧
      st2.ui.btnUrlDoc = some (docButtonFor (specDocUrl n)) ∧
      docButtonOpens (docButtonFor (specDocUrl n)) = specDocUrl n := by
  refine ⟨{ st with ui := createOrUpdateButton st.ui (extractUrl n) }, rfl,
    createOrUpdateButton_extract_spec st.ui n, ?_⟩
  cases specDocUrl n <;> rfl

/-- C9: the documentation-button invariant is preserved by every call to
`createOrUpdateButton`, and right after a call the pane carries exactly one
documentation button, the one `btnUrlDoc` references. -/
theorem createOrUpdateButton_single (st : UIState) (parameterUrl : Option String)
    (h : docButtonInv st) :
    docButtonInv (createOrUpdateButton st parameterUrl) ∧
    ((createOrUpdateButton st parameterUrl).btnUrlDoc).isSome = true ∧
    (createOrUpdateButton st parameterUrl).paneButtons.length = 1 := by
  rw [docButtonInv] at h
  cases hb : st.btnUrlDoc with
  | none =>
    have hp : st.paneButtons = [] := by rw [hb] at h; simpa using h
    refine ⟨?_, ?_, ?_⟩ <;>
      simp [createOrUpdateButton, docButtonInv, hb, hp]
  | some b0 =>
    have hp : st.paneButtons = [b0] := by rw [hb] at h; simpa using h
    refine ⟨?_, ?_, ?_⟩ <;>
      simp [createOrUpdateButton, docButtonInv, hb, hp, List.erase_cons_head]

/-- Witness: the invariant evaluation of `createOrUpdateButton_single` on the
initial state and a concrete URL. -/
theorem createOrUpdateButton_single_witness :
    docButtonInv (createOrUpdateButton { btnUrlDoc := none, paneButtons := [] }
      (some "https://example.org/doc")) ∧
    ((createOrUpdateButton { btnUrlDoc := none, paneButtons := [] }
        (some "https://example.org/doc")).btnUrlDoc).isSome = true ∧
    (createOrUpdateButton { btnUrlDoc := none, paneButtons := [] }
      (some "https://example.org/doc")).paneButtons.length = 1 :=
  createOrUpdateButton_single { btnUrlDoc := none, paneButtons := [] }
    (some "https://example.org/doc") rfl

/-- C10: an ObjectClicked event that is null or whose `hits` field is falsy
leaves the whole viewer state (button, selection, camera, sections, log)
unchanged. -/
theorem objectClicked_no_hits_noop (st : ViewerState)
    (selectionEvent : Option SelectionEvent)
    (h : selectionEvent = none ∨
      ∃ ev, selectionEvent = some ev ∧ ev.hits = none) :
    objectClicked st selectionEvent = some st := by
  rcases h with h | ⟨ev, hev, hh⟩
  · rw [h]; rfl
  · subst hev
    simp [objectClicked, hh]

/-- Witness: `objectClicked_no_hits_noop` evaluated on the null event. -/
theorem objectClicked_no_hits_noop_witness :
    objectClicked sampleState none = some sampleState :=
  objectClicked_no_hits_noop sampleState none (Or.inl rfl)

/-- C1: selecting a known dropdown element whose hard-coded id is bound in the
id-to-node map clears the current selection and calls `setCameraView` with
exactly the one-element list holding the model id of the mapped node and the
transition flag `true`. -/
theorem dropdownChange_known_element (m : List (String × TreeNode))
    (st : ViewerState) (value : String) (tn : TreeNode)
    (hv : value = "echappement" ∨ value = "catalyseur")
    (hfound : mapGet m (if value = "echappement" then echappementId
      else catalyseurId) = some tn) :
    (dropdownChange m st value).selectedIds = [] ∧
    (dropdownChange m st value).cameraView = ([tn.model.id], true) := by
  rcases hv with hv | hv
  · subst hv
    rw [if_pos rfl] at hfound
    simp [dropdownChange, hfound, ZoomOnTreeNode]
  · subst hv
    rw [if_neg (by decide)] at hfound
    simp [dropdownChange, hfound, ZoomOnTreeNode]

/-- Witness: `dropdownChange_known_element` evaluated on a one-entry map
binding the échappement id. -/
theorem dropdownChange_known_element_witness :
    (dropdownChange [(echappementId, zoomNode)] sampleState "echappement").selectedIds = [] ∧
    (dropdownChange [(echappementId, zoomNode)] sampleState "echappement").cameraView =
      (["model-echappement"], true) :=
  dropdownChange_known_element [(echappementId, zoomNode)] sampleState
    "echappement" zoomNode (Or.inl rfl) (by decide)

/-- C5: a dropdown change (other than the `all` reset branch) whose id lookup
yields no node only appends the not-found message to the console log; the
selection, the camera, the section tool and the documentation button are left
unchanged. -/
theorem dropdownChange_lookup_failed (m : List (String × TreeNode))
    (st : ViewerState) (value : String)
    (hall : ¬(value = "all"))
    (hnone : (if value = "echappement" then mapGet m echappementId
      else if value = "catalyseur" then mapGet m catalyseurId
      else none) = none) :
    dropdownChange m st value =
      { st with consoleLog := st.consoleLog ++ [notFoundMsg value] } := by
  rw [dropdownChange, if_neg hall]
  simp only [hnone]

/-- Witness: `dropdownChange_lookup_failed` evaluated on the empty map. -/
theorem dropdownChange_lookup_failed_witness :
    dropdownChange [] sampleState "echappement" =
      { sampleState with
        consoleLog := sampleState.consoleLog ++ [notFoundMsg "echappement"] } :=
  dropdownChange_lookup_failed [] sampleState "echappement" (by decide) rfl

/-- C3: the id-to-node map built after model load has as key set exactly the
truthy id values found in `node.model.raw.properties` over nodes with a truthy
properties object, and every key maps to a scanned node carrying that id. -/
theorem treeNodeMap_scan_characterization (tree : List TreeNode) (k : String) :
    ((mapGet (buildTreeNodeMap tree) k).isSome = true ↔
      ∃ n ∈ tree, propsTruthy n = true ∧ rawId n = some k ∧ k ≠ "") ∧
    (∀ tn, mapGet (buildTreeNodeMap tree) k = some tn →
      tn ∈ scanNodes tree ∧ rawId tn = some k) := by
  have hb := mapGet_buildTreeNodeMap tree k
  constructor
  · rw [hb, lastWithId_isSome_iff]
    constructor
    · rintro ⟨n, hmem, hid⟩
      have hf := List.mem_filter.mp hmem
      have hsp := scanPred_rawId n hf.2
      have hpt := hf.2
      rw [scanPred, Bool.and_eq_true] at hpt
      refine ⟨n, hf.1, hpt.1, ?_, ?_⟩
      · rw [← hid]; exact hsp.1
      · rw [← hid]; exact hsp.2
    · rintro ⟨n, hmem, hpt, hid, hk⟩
      have hscan : scanPred n = true := by
        rw [scanPred, Bool.and_eq_true]
        exact ⟨hpt, by simp [idTruthy, hid, hk]⟩
      exact ⟨n, List.mem_filter.mpr ⟨hmem, hscan⟩, by simp [scanId, hid]⟩
  · intro tn h
    rw [hb] at h
    have hm := lastWithId_mem (scanNodes tree) k tn h
    have hsp := scanPred_rawId tn (List.mem_filter.mp hm.1).2
    exact ⟨hm.1, by rw [← hm.2]; exact hsp.1⟩

/-- Witness: the value characterization of `treeNodeMap_scan_characterization`
evaluated on a one-node tree. -/
theorem treeNodeMap_scan_characterization_witness :
    sampleNode ∈ scanNodes [sampleNode] ∧ rawId sampleNode = some "abc" :=
  (treeNodeMap_scan_characterization [sampleNode] "abc").2 sampleNode (by decide)

/-- C8: the value of the id-to-node map at any id is the scanned node carrying
that id that was encountered last in scan order, so each later insertion
overwrites the earlier one. -/
theorem treeNodeMap_later_insertion_overwrites (tree : List TreeNode)
    (k : String) :
    mapGet (buildTreeNodeMap tree) k = lastWithId (scanNodes tree) k :=
  mapGet_buildTreeNodeMap tree k

/-- C4: every measurement UI change handler writes the new field value
unchanged onto the measurements extension: the enabled handler assigns
`measurementsParams.enabled` to the enabled property of the extension (and
touches nothing else), every other handler assigns the whole params object to
its options, and in each case the corresponding extension property equals the
exact value the user set. -/
theorem measurementsChange_mirrors (params : MeasurementParams)
    (ext : MeasurementsExtensionState) :
    measurementsChange MeasField.enabled params ext =
      { ext with enabled := params.enabled } ∧
    (∀ f, ¬(f = MeasField.enabled) →
      measurementsChange f params ext = { ext with options := params }) ∧
    (measurementsChange MeasField.enabled params ext).enabled = params.enabled ∧
    (measurementsChange MeasField.visible params ext).options.visible = params.visible ∧
    (measurementsChange MeasField.type params ext).options.type = params.type ∧
    (measurementsChange MeasField.vertexSnap params ext).options.vertexSnap = params.vertexSnap ∧
    (measurementsChange MeasField.units params ext).options.units = params.units ∧
    (measurementsChange MeasField.precision params ext).options.precision = params.precision := by
  refine ⟨rfl, ?_, rfl, rfl, rfl, rfl, rfl, rfl⟩
  intro f hf
  cases f with
  | enabled => exact absurd rfl hf
  | visible => rfl
  | type => rfl
  | vertexSnap => rfl
  | units => rfl
  | precision => rfl

/-- Witness: the visible-field branch of `measurementsChange_mirrors`
evaluated on the initial parameters and extension state. -/
theorem measurementsChange_mirrors_witness :
    measurementsChange MeasField.visible measurementsParams sampleExt =
      { sampleExt with options := measurementsParams } :=
  (measurementsChange_mirrors measurementsParams sampleExt).2.1
    MeasField.visible (by decide)

/-- C6: in every run of main, the startup steps form one linear trace in which
viewer initialization completes before the resource URLs are resolved, URL
resolution precedes every object load, the loads follow the resolved list in
order with none overlapping, and no step of the trace is a cancellation or a
timeout. -/
theorem startup_sequential (urls : List String) :
    ∃ pre, startupTrace urls =
        pre ++ StartupStep.resolveUrls ::
          (urls.map StartupStep.loadObject ++ [StartupStep.spinStop]) ∧
      StartupStep.viewerInit ∈ pre ∧
      ¬(StartupStep.resolveUrls ∈ pre) ∧
      ∀ u, ¬(StartupStep.loadObject u ∈ pre) := by
  refine ⟨[StartupStep.spinStart, StartupStep.viewerInit,
    StartupStep.createExtensions], ?_, ?_, ?_, ?_⟩
  · simp [startupTrace]
  · simp
  · simp
  · intro u
    simp

/-- Witness: `startup_sequential` evaluated on a concrete two-URL list. -/
theorem startup_sequential_witness :
    ∃ pre, startupTrace ["u1", "u2"] =
        pre ++ StartupStep.resolveUrls ::
          (["u1", "u2"].map StartupStep.loadObject ++ [StartupStep.spinStop]) ∧
      StartupStep.viewerInit ∈ pre ∧
      ¬(StartupStep.resolveUrls ∈ pre) ∧
      ∀ u, ¬(StartupStep.loadObject u ∈ pre) :=
  startup_sequential ["u1", "u2"]

/-- C7: when the spinner or the renderer container is absent from the DOM, no
guard intercepts the absence and the DOM phase of main halts with the
propagated null-element error. -/
theorem missing_container_halts (dom : Dom)
    (h : dom.byId "spinner" = none ∨ dom.byId "renderer" = none) :
    ∃ e, mainDomPhase dom = Except.error e := by
  cases hs : dom.byId "spinner" with
  | none =>
    exact ⟨InitError.nullElement "spinner", by simp [mainDomPhase, useElement, hs]⟩
  | some el =>
    cases hr : dom.byId "renderer" with
    | none =>
      exact ⟨InitError.nullElement "renderer",
        by simp [mainDomPhase, useElement, hs, hr]⟩
    | some el2 =>
      rcases h with h | h
      · rw [hs] at h; simp at h
      · rw [hr] at h; simp at h

/-- Witness: `missing_container_halts` evaluated on the empty DOM. -/
theorem missing_container_halts_witness :
    ∃ e, mainDomPhase emptyDom = Except.error e :=
  missing_container_halts emptyDom (Or.inl rfl)
